import Mathlib

/-!
A shallow embedding of the core of `daily_checklist.py`: the per-day task
store (`load_day` / `save_day` / `blank_tasks`), the completion aggregator
(`task_counts`) and the carry-over engine (`carry_over_tasks`), together
with the JSON shape used on disk.

Dates are modelled as integers (a day index); `today - timedelta(days=1)`
becomes `today - 1`.  The filesystem is modelled as a partial map from day
index to the stored record; a missing file is `none`.  Python's
`str.strip()` truthiness test (non-empty after stripping whitespace, i.e.
the string has a non-whitespace character) is modelled over the string's
character list.
-/

namespace DailyChecklist

/-- A task dict `{"text": ..., "done": ..., "carried": ...}`. -/
structure Task where
  text : String
  done : Bool
  carried : Bool
deriving DecidableEq, Repr

/-- The filesystem: one optional stored record per day index. -/
def Store : Type := Int → Option (List Task)

/-- `TASKS_PER_DAY = 5`. -/
def TASKS_PER_DAY : Nat := 5

/-- `load_day`: return the stored record for the day, or `None` when the
file does not exist (source lines 63-68). -/
def load_day (s : Store) (day : Int) : Option (List Task) :=
  s day

/-- `save_day`: overwrite the record stored for the day (source lines 71-74). -/
def save_day (s : Store) (day : Int) (tasks : List Task) : Store :=
  fun d => if d = day then some tasks else s d

/-- `blank_tasks`: `TASKS_PER_DAY` tasks with empty text, not done, not
carried (source lines 77-78). -/
def blank_tasks : List Task :=
  List.replicate TASKS_PER_DAY { text := "", done := false, carried := false }

/-- The truthiness test `t["text"].strip()`: the text is non-empty after
stripping whitespace, i.e. it contains a non-whitespace character. -/
def hasText (t : Task) : Bool :=
  t.text.data.any (fun c => !c.isWhitespace)

/-- `task_counts`: `(completed, total_with_text)`, `(-1, -1)` if no tasks
(source lines 81-90). -/
def task_counts (s : Store) (day : Int) : Int × Int :=
  match load_day s day with
  | none => (-1, -1)
  | some data =>
    let total := data.countP (fun t => hasText t)
    if total = 0 then (-1, -1)
    else ((data.countP (fun t => t.done && hasText t) : Int), (total : Int))

/-- The carry candidates: `[t for t in prev if t["text"].strip() and not
t["done"]]` (source line 100). -/
def isIncomplete (t : Task) : Bool :=
  hasText t && !t.done

/-- The slot-filling loop of `carry_over_tasks` (source lines 111-123):
walk today's slots from the front; a slot whose text is non-empty is kept
and skipped, an empty slot is overwritten with the next incomplete task's
text (with `done=false`, `carried=true`) and never reconsidered.  Returns
the updated slots and the incomplete tasks that found no slot
(`remaining`). -/
def fillSlots : List Task → List Task → List Task × List Task
  | [], inc => ([], inc)
  | t :: ts, [] => (t :: ts, [])
  | t :: ts, i :: is =>
    if hasText t then
      let p := fillSlots ts (i :: is)
      (t :: p.1, p.2)
    else
      let p := fillSlots ts is
      ({ text := i.text, done := false, carried := true } :: p.1, p.2)

/-- The record `carry_over_tasks` saves for today when it reaches the save:
the filled slots followed by the leftover tasks appended with
`carried=true`, `done=false` (source lines 111-127). -/
def carryResult (today_data incomplete : List Task) : List Task :=
  let p := fillSlots today_data incomplete
  p.1 ++ p.2.map (fun t => { text := t.text, done := false, carried := true })

/-- `carry_over_tasks`: copy incomplete tasks from yesterday into today's
empty slots (source lines 93-129).  Returns the updated filesystem; the
early `return`s of the source leave it unchanged. -/
def carry_over_tasks (s : Store) (today : Int) : Store :=
  match load_day s (today - 1) with
  | none => s
  | some prev =>
    let incomplete := prev.filter isIncomplete
    if incomplete.isEmpty then s
    else
      let today_data := (load_day s today).getD blank_tasks
      if today_data.any (fun t => t.carried) then s
      else save_day s today (carryResult today_data incomplete)

/-! ### The on-disk JSON shape

`save_day` runs `json.dump(tasks, f)` and `load_day` runs `json.load(f)`:
each task is an object with exactly the fields `text` (string), `done`
(boolean), `carried` (boolean), and the record is an array of them. -/

/-- A JSON value (the fragment the program uses). -/
inductive Json where
  | str (s : String)
  | bool (b : Bool)
  | arr (elems : List Json)
  | obj (fields : List (String × Json))

/-- `json.dump` of one task dict. -/
def encodeTask (t : Task) : Json :=
  .obj [("text", .str t.text), ("done", .bool t.done), ("carried", .bool t.carried)]

/-- `json.dump` of a record. -/
def encodeTasks (ts : List Task) : Json :=
  .arr (ts.map encodeTask)

/-- Reading one task dict back from JSON. -/
def decodeTask (j : Json) : Option Task :=
  match j with
  | .obj fields =>
    match fields.lookup "text", fields.lookup "done", fields.lookup "carried" with
    | some (.str s), some (.bool d), some (.bool c) =>
      some { text := s, done := d, carried := c }
    | _, _, _ => none
  | _ => none

/-- Reading a list of task dicts back from JSON values. -/
def decodeTaskList : List Json → Option (List Task)
  | [] => some []
  | j :: js =>
    match decodeTask j, decodeTaskList js with
    | some t, some ts => some (t :: ts)
    | _, _ => none

/-- Reading a record back from JSON. -/
def decodeTasks (j : Json) : Option (List Task) :=
  match j with
  | .arr elems => decodeTaskList elems
  | _ => none

/-! ### Concrete stores used by the example-based properties -/

/-- Yesterday (day 0) holds incomplete tasks `A`, `B`; today (day 1) holds
five slots `["", "X", "", "", ""]`. -/
def storeSlotExample : Store := fun n =>
  if n = 0 then some [⟨"A", false, false⟩, ⟨"B", false, false⟩]
  else if n = 1 then
    some [⟨"", false, false⟩, ⟨"X", false, false⟩, ⟨"", false, false⟩,
          ⟨"", false, false⟩, ⟨"", false, false⟩]
  else none

/-- Yesterday (day 0) holds the single incomplete task `Z`; today (day 1)
is fully occupied by `["P", "Q", "R", "S", "T"]`, none carried. -/
def storeOverflowExample : Store := fun n =>
  if n = 0 then some [⟨"Z", false, false⟩]
  else if n = 1 then
    some [⟨"P", false, false⟩, ⟨"Q", false, false⟩, ⟨"R", false, false⟩,
          ⟨"S", false, false⟩, ⟨"T", false, false⟩]
  else none

/-- A store with no record on any day. -/
def emptyStore : Store := fun _ => none

/-- A store whose day-0 record exists but has only whitespace-free-less
(empty-text) tasks, with assorted flags. -/
def allEmptyStore : Store := fun n =>
  if n = 0 then some [⟨"", true, true⟩, ⟨"", false, false⟩] else none

/-- Yesterday (day 0) holds the single incomplete task `A`; today has no
record yet. -/
def storeCarryWitness : Store := fun n =>
  if n = 0 then some [⟨"A", false, false⟩] else none

/-- A store with a 2-task record on day 0, used to evaluate the
aggregator. -/
def storeCountsWitness : Store := fun n =>
  if n = 0 then some [⟨"A", true, false⟩, ⟨"B", false, false⟩] else none

/-! ### Helper lemmas -/

theorem load_save_same (s : Store) (d : Int) (r : List Task) :
    load_day (save_day s d r) d = some r := by
  simp [load_day, save_day]

theorem load_save_other (s : Store) (d d' : Int) (r : List Task) (h : d' ≠ d) :
    load_day (save_day s d r) d' = load_day s d' := by
  simp [load_day, save_day, h]

theorem fillSlots_nil (ts : List Task) : fillSlots ts [] = (ts, []) := by
  cases ts <;> simp [fillSlots]

theorem carryResult_cons_skip (t : Task) (ts inc : List Task)
    (h : hasText t = true) :
    carryResult (t :: ts) inc = t :: carryResult ts inc := by
  cases inc with
  | nil => simp [carryResult, fillSlots, fillSlots_nil]
  | cons i is => simp [carryResult, fillSlots, h]

theorem carryResult_cons_fill (t : Task) (ts : List Task) (i : Task)
    (is : List Task) (h : hasText t = false) :
    carryResult (t :: ts) (i :: is) =
      { text := i.text, done := false, carried := true } :: carryResult ts is := by
  simp [carryResult, fillSlots, h]

/-- When at least one incomplete task is handed to the slot filler, the
resulting record contains a `carried=true` task. -/
theorem carryResult_any_carried (td : List Task) (i : Task) (is : List Task) :
    (carryResult td (i :: is)).any (fun t => t.carried) = true := by
  induction td generalizing i is with
  | nil => simp [carryResult, fillSlots]
  | cons t ts ih =>
    by_cases h : hasText t = true
    · rw [carryResult_cons_skip t ts _ h]
      simp [ih]
    · rw [carryResult_cons_fill t ts i is (by simpa using h)]
      simp

/-- Every text handed to the slot filler appears among the texts of the
resulting record. -/
theorem carryResult_text_mem (td inc : List Task) (t : Task) (ht : t ∈ inc) :
    t.text ∈ (carryResult td inc).map Task.text := by
  induction td generalizing inc with
  | nil =>
    simp only [carryResult, fillSlots, List.nil_append, List.map_map]
    exact List.mem_map.mpr ⟨t, ht, rfl⟩
  | cons x ts ih =>
    cases inc with
    | nil => cases ht
    | cons i is =>
      by_cases h : hasText x = true
      · rw [carryResult_cons_skip x ts _ h]
        simpa using Or.inr (ih _ ht)
      · rw [carryResult_cons_fill x ts i is (by simpa using h)]
        rcases List.mem_cons.mp ht with rfl | hmem
        · simp
        · simpa using Or.inr (ih _ hmem)

/-- `carry_over_tasks` either leaves the store untouched or saves
`carryResult` of today's (possibly blank-initialised) record and
yesterday's incomplete tasks into today. -/
theorem carry_cases (s : Store) (d : Int) :
    carry_over_tasks s d = s ∨
    ∃ prev, load_day s (d - 1) = some prev ∧
      (prev.filter isIncomplete).isEmpty = false ∧
      ((load_day s d).getD blank_tasks).any (fun t => t.carried) = false ∧
      carry_over_tasks s d =
        save_day s d
          (carryResult ((load_day s d).getD blank_tasks) (prev.filter isIncomplete)) := by
  unfold carry_over_tasks
  cases h : load_day s (d - 1) with
  | none => exact Or.inl rfl
  | some prev =>
    by_cases hinc : (prev.filter isIncomplete).isEmpty
    · simp [hinc]
    · by_cases hc : ((load_day s d).getD blank_tasks).any (fun t => t.carried)
      · simp [hinc, hc]
      · right
        refine ⟨prev, rfl, by simpa using hinc, by simpa using hc, ?_⟩
        simp [hinc, hc]

/-- Once `carry_over_tasks` has run, running it again for the same day
changes nothing (full-store form). -/
theorem carry_over_fix (s : Store) (d : Int) :
    carry_over_tasks (carry_over_tasks s d) d = carry_over_tasks s d := by
  rcases carry_cases s d with h | ⟨prev, hp, hne, _, hs⟩
  · rw [h]; exact h
  · rw [hs]
    obtain ⟨i, is, hil⟩ : ∃ i is, prev.filter isIncomplete = i :: is := by
      cases hl : prev.filter isIncomplete with
      | nil => rw [hl] at hne; simp at hne
      | cons i is => exact ⟨i, is, rfl⟩
    have hyd : (d : Int) - 1 ≠ d := by omega
    have h1 : load_day (save_day s d
        (carryResult ((load_day s d).getD blank_tasks) (prev.filter isIncomplete)))
        (d - 1) = some prev := by
      rw [load_save_other _ _ _ _ hyd]; exact hp
    have h2 : load_day (save_day s d
        (carryResult ((load_day s d).getD blank_tasks) (prev.filter isIncomplete)))
        d = some (carryResult ((load_day s d).getD blank_tasks) (prev.filter isIncomplete)) :=
      load_save_same _ _ _
    have hany : (carryResult ((load_day s d).getD blank_tasks)
        (prev.filter isIncomplete)).any (fun t => t.carried) = true := by
      rw [hil]; exact carryResult_any_carried _ _ _
    unfold carry_over_tasks
    rw [h1]
    have hne2 : (prev.filter isIncomplete).isEmpty = false := hne
    simp [hne2, h2, hany]

theorem decode_encode_task (t : Task) : decodeTask (encodeTask t) = some t := by
  simp [decodeTask, encodeTask, List.lookup]

theorem decode_encode_list (r : List Task) :
    decodeTaskList (r.map encodeTask) = some r := by
  induction r with
  | nil => rfl
  | cons t ts ih => simp [decodeTaskList, decode_encode_task, ih]

/-! ### The claims -/

/-- C1: Carry-over is idempotent per day: running `carry_over_tasks` twice
in succession with the same `today`, with no edits in between, leaves
today's stored record equal to the record obtained by running it once. -/
theorem carry_over_idempotent (s : Store) (d : Int) :
    load_day (carry_over_tasks (carry_over_tasks s d) d) d =
      load_day (carry_over_tasks s d) d := by
  rw [carry_over_fix]

/-- C2: No-loss carry-over: when yesterday's record is stored and today's
effective record has no `carried=true` task, every task of yesterday's
incomplete subsequence has its text appear among the texts of today's
stored tasks after `carry_over_tasks`. -/
theorem carry_over_no_loss (s : Store) (d : Int) (prev : List Task) (t : Task)
    (hp : load_day s (d - 1) = some prev)
    (hnc : ((load_day s d).getD blank_tasks).any (fun x => x.carried) = false)
    (ht : t ∈ prev.filter isIncomplete) :
    ∃ rec, load_day (carry_over_tasks s d) d = some rec ∧
      t.text ∈ rec.map Task.text := by
  have hne : (prev.filter isIncomplete).isEmpty = false := by
    cases hl : prev.filter isIncomplete with
    | nil => rw [hl] at ht; cases ht
    | cons _ _ => rfl
  have hrun : carry_over_tasks s d =
      save_day s d
        (carryResult ((load_day s d).getD blank_tasks) (prev.filter isIncomplete)) := by
    unfold carry_over_tasks
    rw [hp]
    simp [hne, hnc]
  exact ⟨_, by rw [hrun]; exact load_save_same _ _ _,
    carryResult_text_mem _ _ _ ht⟩

/-- Witness for C2 at a concrete store: yesterday holds the single
incomplete task `A`, today has no record; after carry-over the text `A` is
present in today's stored record. -/
theorem carry_over_no_loss_witness :
    ∃ rec, load_day (carry_over_tasks storeCarryWitness 1) 1 = some rec ∧
      "A" ∈ rec.map Task.text := by
  exact carry_over_no_loss storeCarryWitness 1 [⟨"A", false, false⟩]
    ⟨"A", false, false⟩ (by decide) (by decide) (by decide)

/-- C3: Slot-filling determinism: with yesterday incomplete `["A", "B"]`
and today `["", "X", "", "", ""]` (no carried task), after
`carry_over_tasks` today's stored record is
`["A", "X", "B", "", ""]`: each incomplete task fills the next empty slot
in order, the non-empty slot `X` is skipped, and the filled slots get
`done=false`, `carried=true`. -/
theorem slot_filling_example :
    storeSlotExample 0 = some [⟨"A", false, false⟩, ⟨"B", false, false⟩] ∧
    storeSlotExample 1 =
      some [⟨"", false, false⟩, ⟨"X", false, false⟩, ⟨"", false, false⟩,
            ⟨"", false, false⟩, ⟨"", false, false⟩] ∧
    load_day (carry_over_tasks storeSlotExample 1) 1 =
      some [⟨"A", false, true⟩, ⟨"X", false, false⟩, ⟨"B", false, true⟩,
            ⟨"", false, false⟩, ⟨"", false, false⟩] :=
  ⟨by decide, by decide, by decide⟩

/-- C4: Overflow on full today: with today fully occupied by
`["P", "Q", "R", "S", "T"]` (none carried) and yesterday incomplete
`["Z"]`, after `carry_over_tasks` today's stored record has six tasks, the
sixth being exactly `{"text": "Z", "done": false, "carried": true}`. -/
theorem overflow_example :
    storeOverflowExample 0 = some [⟨"Z", false, false⟩] ∧
    storeOverflowExample 1 =
      some [⟨"P", false, false⟩, ⟨"Q", false, false⟩, ⟨"R", false, false⟩,
            ⟨"S", false, false⟩, ⟨"T", false, false⟩] ∧
    load_day (carry_over_tasks storeOverflowExample 1) 1 =
      some [⟨"P", false, false⟩, ⟨"Q", false, false⟩, ⟨"R", false, false⟩,
            ⟨"S", false, false⟩, ⟨"T", false, false⟩, ⟨"Z", false, true⟩] :=
  ⟨by decide, by decide, by decide⟩

/-- C5: No-op carry-over: if yesterday's record is absent, or yesterday
has no incomplete non-empty task, or today's record already contains a
`carried=true` task, then `carry_over_tasks` leaves the whole store (in
particular today's record, present or absent) unchanged. -/
theorem carry_over_noop (s : Store) (d : Int)
    (h : load_day s (d - 1) = none
      ∨ (∃ prev, load_day s (d - 1) = some prev ∧ prev.filter isIncomplete = [])
      ∨ (∃ td, load_day s d = some td ∧ td.any (fun t => t.carried) = true)) :
    carry_over_tasks s d = s := by
  unfold carry_over_tasks
  rcases h with h | ⟨prev, hp, hinc⟩ | ⟨td, htd, hc⟩
  · rw [h]
  · rw [hp]; simp [hinc]
  · cases hy : load_day s (d - 1) with
    | none => rfl
    | some prev =>
      by_cases hinc : (prev.filter isIncomplete).isEmpty
      · simp [hinc]
      · simp [hinc, htd, hc]

/-- Witness for C5: on the store with no records at all, carry-over for
day 0 changes nothing. -/
theorem carry_over_noop_witness : carry_over_tasks emptyStore 0 = emptyStore :=
  carry_over_noop emptyStore 0 (Or.inl rfl)

/-- C6: Fraction-form aggregation: for a stored record, `task_counts`
returns `(done_count, total_entered)` where `total_entered` counts tasks
with non-empty (after stripping) text and `done_count` counts tasks with
non-empty text and `done=true`, with sentinel `(-1, -1)` when
`total_entered = 0`; and appending an empty-text task, whatever its `done`
and `carried` flags, never changes the counts. -/
theorem task_counts_fraction (s : Store) (d : Int) (rec : List Task)
    (h : load_day s d = some rec) :
    task_counts s d =
      (if rec.countP (fun t => hasText t) = 0 then (-1, -1)
       else ((rec.countP (fun t => t.done && hasText t) : Int),
             (rec.countP (fun t => hasText t) : Int))) ∧
    ∀ dn cr : Bool,
      task_counts (save_day s d (rec ++ [⟨"", dn, cr⟩])) d = task_counts s d := by
  constructor
  · simp [task_counts, h]
  · intro dn cr
    have h1 : hasText ⟨"", dn, cr⟩ = false := rfl
    simp [task_counts, h, load_save_same, List.countP_append,
      List.countP_cons, h1]

/-- Witness for C6: on a record with tasks `A` (done) and `B` (not done),
`task_counts` yields `(1, 2)`. -/
theorem task_counts_fraction_witness : task_counts storeCountsWitness 0 = (1, 2) := by
  have h := (task_counts_fraction storeCountsWitness 0
      [⟨"A", true, false⟩, ⟨"B", false, false⟩] (by decide)).1
  rw [h]; decide

/-- C7: Save/load round trip: saving a record and loading it back for the
same date returns the record, and the JSON encoding of a record decodes
back to the record. -/
theorem save_load_round_trip (s : Store) (d : Int) (r : List Task) :
    load_day (save_day s d r) d = some r ∧
      decodeTasks (encodeTasks r) = some r :=
  ⟨load_save_same s d r, by simp [decodeTasks, encodeTasks, decode_encode_list]⟩

/-- C8: Load is honest about absence: `load_day` returns the stored record
when one exists and `none` when none exists; every record it returns was
stored (it fabricates nothing), and the absent outcome is distinct from an
empty task list. -/
theorem load_day_absence (s : Store) (d : Int) :
    (s d = none → load_day s d = none) ∧
    (∀ r, s d = some r → load_day s d = some r) ∧
    (∀ r, load_day s d = some r → s d = some r) ∧
    (s d = none → load_day s d ≠ some []) := by
  refine ⟨fun h => h, fun r h => h, fun r h => h, fun h hc => ?_⟩
  rw [load_day, h] at hc
  cases hc

/-- Witness for C8 on the empty store. -/
theorem load_day_absence_witness : load_day emptyStore 0 = none :=
  (load_day_absence emptyStore 0).1 rfl

/-- C9: Carry-over never touches yesterday: after `carry_over_tasks` for
any store and day, the stored record for the previous day is unchanged. -/
theorem carry_over_preserves_yesterday (s : Store) (d : Int) :
    load_day (carry_over_tasks s d) (d - 1) = load_day s (d - 1) := by
  rcases carry_cases s d with h | ⟨prev, hp, hne, hnc, hs⟩
  · rw [h]
  · rw [hs, load_save_other _ _ _ _ (by omega)]

/-- C10: Absent record aggregates to the sentinel: a date with no
persisted record yields `(-1, -1)` from `task_counts`, the same value as a
stored record with zero entered tasks, so the aggregator does not
distinguish the two. -/
theorem absent_sentinel (s s2 : Store) (d : Int) (h : s d = none)
    (rec : List Task) (h2 : s2 d = some rec)
    (hz : rec.countP (fun t => hasText t) = 0) :
    task_counts s d = (-1, -1) ∧ task_counts s2 d = task_counts s d := by
  have ha : task_counts s d = (-1, -1) := by
    simp [task_counts, load_day, h]
  refine ⟨ha, ?_⟩
  rw [ha]
  simp [task_counts, load_day, h2, hz]

/-- Witness for C10: the empty store and a store whose day-0 record has
only empty-text tasks (with assorted flags) agree on the sentinel. -/
theorem absent_sentinel_witness :
    task_counts emptyStore 0 = (-1, -1) ∧
      task_counts allEmptyStore 0 = task_counts emptyStore 0 :=
  absent_sentinel emptyStore allEmptyStore 0 rfl
    [⟨"", true, true⟩, ⟨"", false, false⟩] (by decide) (by decide)

end DailyChecklist
